import Mathlib

/-!
Verification of the library-catalogue service (Book / Loan CRUD with a
borrow/return loan ledger), shallowly embedded from the repository's
final iteration `v7/routes.py` and `v7/models.py` (MongoEngine backend),
with the SQL iteration `v5/routes.py` embedded where the claims cite it.

Modelling conventions:
- Persistent state is a `Store`: the list of Book documents, the list of
  Loan documents, and the id counters the store uses to assign fresh ids
  (Mongo ObjectIds / SQL autoincrement keys are modelled as naturals).
- JSON request fields are `Option`-valued; a missing key is `none`.
  Python falsiness (`if not data.get('x')`) treats both a missing key and
  an empty string as absent, and the embeddings mirror that.
- Each route returns either a declared JSON result or a declared error
  (`validation` ~ HTTP 400, `notFound` ~ 404, `conflict` ~ 400 "already
  borrowed" per the spec's taxonomy).  An unhandled Python exception
  (HTTP 500) is modelled by an explicit `crash` result.
- MongoDB string ordering is modelled by code-point lexicographic
  comparison (`charsLe`), executable in the kernel.
-/

/-- A Book document (`v7/models.py`, class `Book`): `title`, `author`,
`is_borrowed` (default false), plus the store-assigned id. -/
structure Book where
  id : Nat
  title : String
  author : String
  is_borrowed : Bool
deriving DecidableEq

/-- A Loan document (`v7/models.py`, class `Loan`): a reference to a Book
by id, the borrower's name, and the store-assigned id.  (`borrowed_at` is
wall-clock time and is not modelled.) -/
structure Loan where
  id : Nat
  book_id : Nat
  borrower_name : String
deriving DecidableEq

/-- The persistent store: Book and Loan collections plus fresh-id counters. -/
structure Store where
  books : List Book
  loans : List Loan
  nextBookId : Nat
  nextLoanId : Nat
deriving DecidableEq

/-- The store holding no documents. -/
def emptyStore : Store := ⟨[], [], 0, 0⟩

/-- Error taxonomy of the spec (§7): 400 bad input, 404 absent entity,
400 "already borrowed". Each carries the route's message string. -/
inductive Err where
  | validation (msg : String)
  | notFound (msg : String)
  | conflict (msg : String)
deriving DecidableEq

/-- `Book.objects(id=book_id).first()` — first Book with the given id. -/
def findBook (s : Store) (book_id : Nat) : Option Book :=
  s.books.find? (fun b => b.id == book_id)

/-- `Loan.objects(id=loan_id).first()` — first Loan with the given id. -/
def findLoan (s : Store) (loan_id : Nat) : Option Loan :=
  s.loans.find? (fun l => l.id == loan_id)

/-- `POST /books` (`v7/routes.py`, `add_book`): reject when `title` or
`author` is missing or empty (Python falsiness of `data.get`), else save
a Book with a fresh id and `is_borrowed` defaulted to false. -/
def add_book (s : Store) (title author : Option String) : Except Err (Book × Store) :=
  match title, author with
  | some t, some a =>
    if t = "" ∨ a = "" then
      .error (.validation "Missing required fields")
    else
      let b : Book := ⟨s.nextBookId, t, a, false⟩
      .ok (b, { s with books := s.books ++ [b], nextBookId := s.nextBookId + 1 })
  | _, _ => .error (.validation "Missing required fields")

/-- `POST /books` in the SQL iteration (`v5/routes.py`, `add_book`): no
validation at all — `Book(title=data['title'], author=data['author'])`.
A missing key raises `KeyError` (unhandled, HTTP 500), modelled as
`keyErrorCrash`; an empty string is stored as given. -/
inductive V5AddResult where
  | ok (b : Book) (s : Store)
  | keyErrorCrash
deriving DecidableEq

def add_book_v5 (s : Store) (title author : Option String) : V5AddResult :=
  match title, author with
  | some t, some a =>
    let b : Book := ⟨s.nextBookId, t, a, false⟩
    .ok b { s with books := s.books ++ [b], nextBookId := s.nextBookId + 1 }
  | _, _ => .keyErrorCrash

/-- The read phase of `POST /loans` (`v7/routes.py`, `borrow_book` line
351): fetch the Book document for the requested id. -/
def borrowReadPhase (s : Store) (book_id : Nat) : Option Book :=
  findBook s book_id

/-- The write phase of `POST /loans` (`v7/routes.py`, `borrow_book` lines
357–359): `Loan(book=book, borrower_name=...).save()` then
`book.is_borrowed = True; book.save()`.  `book.save()` writes back the
fetched snapshot `b` with its flag set. -/
def borrowWritePhase (s : Store) (b : Book) (borrower_name : String) : Loan × Store :=
  let loan : Loan := ⟨s.nextLoanId, b.id, borrower_name⟩
  (loan,
    { s with
      loans := s.loans ++ [loan]
      nextLoanId := s.nextLoanId + 1
      books := s.books.map (fun b' : Book => if b'.id = b.id then { b with is_borrowed := true } else b') })

/-- `POST /loans` (`v7/routes.py`, `borrow_book`): require both fields
(Python falsiness), 404 when the Book is absent, 400 "Book already
borrowed" when its flag is set, otherwise create the Loan and set the
flag.  The read and write phases are separate store round-trips. -/
def borrow_book (s : Store) (book_id : Option Nat) (borrower_name : Option String) :
    Except Err (Loan × Store) :=
  match book_id, borrower_name with
  | some bid, some nm =>
    if nm = "" then
      .error (.validation "book_id and borrower_name are required")
    else
      match borrowReadPhase s bid with
      | none => .error (.notFound "Book not found")
      | some b =>
        if b.is_borrowed then
          .error (.conflict "Book already borrowed")
        else
          .ok (borrowWritePhase s b nm)
  | _, _ => .error (.validation "book_id and borrower_name are required")

/-- Result of `DELETE /loans/{id}`: success and 404 carry the post-state;
`crash` models the unhandled `AttributeError` raised by
`f"Book '{book.title}' ..."` when `book` is `None` (line 397 sits outside
the `if book:` guard of lines 392–394). -/
inductive ReturnResult where
  | ok (msg : String) (s : Store)
  | notFound (msg : String) (s : Store)
  | crash (s : Store)
deriving DecidableEq

/-- `DELETE /loans/{id}` (`v7/routes.py`, `return_book`): 404 when the
Loan is absent; otherwise clear the referenced Book's flag when that Book
still exists, delete the Loan, and format the success message from
`book.title` — which raises when the Book was gone. -/
def return_book (s : Store) (loan_id : Nat) : ReturnResult :=
  match findLoan s loan_id with
  | none => .notFound "Loan not found" s
  | some loan =>
    let bookOpt := findBook s loan.book_id
    let s₁ :=
      match bookOpt with
      | some b =>
        { s with books := s.books.map (fun b' : Book => if b'.id = b.id then { b with is_borrowed := false } else b') }
      | none => s
    let s₂ := { s₁ with loans := s₁.loans.filter (fun l : Loan => l.id ≠ loan.id) }
    match bookOpt with
    | some b => .ok ("Book \x27" ++ b.title ++ "\x27 returned successfully") s₂
    | none => .crash s₂

/-- `DELETE /books/{id}` (`v7/routes.py`, `delete_book`): 404 when absent,
else `book.delete()`.  The Loan model declares
`ReferenceField(Book, reverse_delete_rule=2)` (CASCADE), so deleting a
Book also deletes every Loan referencing it. -/
def delete_book (s : Store) (book_id : Nat) : Except Err Store :=
  match findBook s book_id with
  | none => .error (.notFound "Book not found")
  | some b =>
    .ok { s with
      books := s.books.filter (fun b' : Book => b'.id ≠ b.id)
      loans := s.loans.filter (fun l : Loan => l.book_id ≠ b.id) }

/-- Result of the SQL iteration's `DELETE /books/{id}`.
`integrityErrorCrash` models the unhandled `IntegrityError` (HTTP 500,
nothing deleted) the commit raises when a Loan still references the
Book: the repo's SQL models (`v2/models.py` lines 12 and 26,
`v4/v3/models.py` lines 13 and 27) declare
`loan = db.relationship('Loan', backref='book')` with no delete cascade
and `book_id ... nullable=False`, so SQLAlchemy nulls the children's
foreign key on `session.delete(book)` and the NOT NULL constraint
fires. -/
inductive V5DeleteResult where
  | ok (s : Store)
  | notFound (msg : String)
  | integrityErrorCrash
deriving DecidableEq

/-- `DELETE /books/{id}` in the SQL iteration (`v5/routes.py`,
`delete_book`): 404 when absent; `db.session.delete(book); commit()`
removes only the Book row when no Loan references it, and raises an
unhandled `IntegrityError` when one does (see `V5DeleteResult`). -/
def delete_book_v5 (s : Store) (book_id : Nat) : V5DeleteResult :=
  match findBook s book_id with
  | none => .notFound "Book not found"
  | some b =>
    if s.loans.any (fun l => l.book_id == b.id) then
      .integrityErrorCrash
    else
      .ok { s with books := s.books.filter (fun b' : Book => b'.id ≠ b.id) }

/-- Code-point lexicographic order on character lists: the executable
model of MongoDB's string ordering used by `order_by`. -/
def charsLe : List Char → List Char → Bool
  | [], _ => true
  | _ :: _, [] => false
  | a :: as, b :: bs => if a = b then charsLe as bs else decide (a < b)

/-- String comparison for sorting. -/
def strLe (s t : String) : Bool := charsLe s.data t.data

/-- Python `.strip()`: drop whitespace from both ends (executable in the
kernel, unlike `String.trim`). -/
def strTrim (s : String) : String :=
  ⟨((s.data.dropWhile Char.isWhitespace).reverse.dropWhile Char.isWhitespace).reverse⟩

/-- Does `hay` start with `needle`? -/
def startsWithChars : List Char → List Char → Bool
  | [], _ => true
  | _ :: _, [] => false
  | a :: as, b :: bs => decide (a = b) && startsWithChars as bs

/-- Does `hay` contain `needle` as a contiguous run? -/
def containsChars (needle : List Char) : List Char → Bool
  | [] => needle.isEmpty
  | b :: t => startsWithChars needle (b :: t) || containsChars needle t

/-- Case-insensitive substring match: `field__icontains=term`. -/
def icontains (haystack term : String) : Bool :=
  containsChars (term.data.map Char.toLower) (haystack.data.map Char.toLower)

/-- The query parameters of `GET /books` with the route's defaults
(`v7/routes.py`, `get_books`, lines 102–108). -/
structure ListParams where
  page : Int := 1
  per_page : Int := 10
  search : String := ""
  author : String := ""
  is_borrowed : Option Bool := none
  sort_by : String := "title"
  sort_order : String := "asc"
deriving DecidableEq

/-- The filter built at lines 120–127: `search` matches title OR author
case-insensitively, `author` matches author, `is_borrowed` matches the
flag; all supplied filters AND together.  The route strips whitespace
from `search` and `author` and skips an empty filter. -/
def matchesQuery (p : ListParams) (b : Book) : Bool :=
  (if strTrim p.search = "" then true
   else icontains b.title (strTrim p.search) || icontains b.author (strTrim p.search)) &&
  (if strTrim p.author = "" then true else icontains b.author (strTrim p.author)) &&
  (match p.is_borrowed with
   | some v => b.is_borrowed == v
   | none => true)

/-- Comparison on one sort field.  Book documents carry no `created_at`
value (`v7/models.py` defines none), so ordering by it compares nothing:
every pair ties. -/
def fieldLe (field : String) (a b : Book) : Bool :=
  if field = "title" then strLe a.title b.title
  else if field = "author" then strLe a.author b.author
  else if field = "id" then decide (a.id ≤ b.id)
  else true

/-- `order_by(order_field)` with `order_field = ('-' if desc else '') + field`. -/
def bookLe (field : String) (desc : Bool) (a b : Book) : Bool :=
  if desc then fieldLe field b a else fieldLe field a b

/-- The store's sort, modelled as a stable sort by the field comparator;
the engine guarantees nothing about the relative order of tied documents. -/
def sortBooks (field : String) (desc : Bool) (l : List Book) : List Book :=
  List.insertionSort (fun a b => bookLe field desc a b = true) l

/-- `valid_sort_fields` (line 116). -/
def validSortFields : List String := ["title", "author", "id", "created_at"]

/-- `math.ceil(a / b)` on integers with `b > 0`, as the store computes it
at line 134: the ceiling of the exact quotient. -/
def ceilingDiv (a b : Int) : Int := -(-a / b)

/-- The pagination metadata object (lines 144–151). -/
structure Pagination where
  page : Int
  per_page : Int
  total_pages : Int
  total_items : Int
  has_next : Bool
  has_prev : Bool
deriving DecidableEq

/-- The 200 response body of `GET /books`. -/
structure BooksPage where
  books : List Book
  pagination : Pagination
deriving DecidableEq

/-- `GET /books` (`v7/routes.py`, `get_books`): validate `page ≥ 1`,
`per_page ∈ [1, 100]` and the sort field; filter; count; compute
`total_pages = math.ceil(total_items / per_page)`; sort; slice with
`skip((page-1)*per_page).limit(per_page)`; attach metadata. -/
def get_books (s : Store) (p : ListParams) : Except Err BooksPage :=
  if p.page < 1 then .error (.validation "Page must be greater than 0")
  else if p.per_page < 1 ∨ p.per_page > 100 then
    .error (.validation "per_page must be between 1 and 100")
  else if p.sort_by ∉ validSortFields then
    .error (.validation "Invalid sort field")
  else
    let filtered := s.books.filter (matchesQuery p)
    let total_items : Int := filtered.length
    let total_pages : Int := ceilingDiv total_items p.per_page
    let sorted := sortBooks p.sort_by (p.sort_order = "desc") filtered
    let items := (sorted.drop ((p.page - 1) * p.per_page).toNat).take p.per_page.toNat
    .ok
      { books := items
        pagination :=
          { page := p.page
            per_page := p.per_page
            total_pages := total_pages
            total_items := total_items
            has_next := decide (p.page < total_pages)
            has_prev := decide (1 < p.page) } }

/-- Distinct Book documents carry distinct ids. -/
def BookIdsNodup (s : Store) : Prop :=
  s.books.Pairwise (fun a b => a.id ≠ b.id)

/-- Distinct Loan documents carry distinct ids. -/
def LoanIdsNodup (s : Store) : Prop :=
  s.loans.Pairwise (fun a b => a.id ≠ b.id)

/-- §3 `is_borrowed`: a Book's flag is set iff an active Loan references it. -/
def FlagMatchesLoans (s : Store) : Prop :=
  ∀ b ∈ s.books, (b.is_borrowed = true ↔ ∃ l ∈ s.loans, l.book_id = b.id)

/-- §3 invariant: at most one active Loan per Book. -/
def AtMostOneLoanPerBook (s : Store) : Prop :=
  ∀ l₁ ∈ s.loans, ∀ l₂ ∈ s.loans, l₁.book_id = l₂.book_id → l₁ = l₂

/-- Every stored id is below the store's fresh-id counters. -/
def IdsFresh (s : Store) : Prop :=
  (∀ b ∈ s.books, b.id < s.nextBookId) ∧
  (∀ l ∈ s.loans, l.id < s.nextLoanId ∧ l.book_id < s.nextBookId)

/-- Every Loan references a Book that exists. -/
def LoanBookExists (s : Store) : Prop :=
  ∀ l ∈ s.loans, ∃ b ∈ s.books, b.id = l.book_id

/-- Well-formedness of a store, preserved by create/borrow/return. -/
def WF (s : Store) : Prop :=
  BookIdsNodup s ∧ LoanIdsNodup s ∧ FlagMatchesLoans s ∧
    AtMostOneLoanPerBook s ∧ IdsFresh s ∧ LoanBookExists s

/-- One successful mutating request against the store: a create
(`POST /books`), a borrow (`POST /loans`) or a return (`DELETE /loans`). -/
inductive Step : Store → Store → Prop where
  | create (s : Store) (title author : Option String) (b : Book) (s' : Store) :
      add_book s title author = .ok (b, s') → Step s s'
  | borrow (s : Store) (book_id : Option Nat) (nm : Option String) (l : Loan) (s' : Store) :
      borrow_book s book_id nm = .ok (l, s') → Step s s'
  | ret (s : Store) (loan_id : Nat) (msg : String) (s' : Store) :
      return_book s loan_id = .ok msg s' → Step s s'

/-- The stores reachable from the empty store by create/borrow/return. -/
inductive Reach : Store → Prop where
  | empty : Reach emptyStore
  | step {s s' : Store} : Reach s → Step s s' → Reach s'

theorem add_book_ok {s : Store} {title author : Option String} {b : Book} {s' : Store}
    (h : add_book s title author = .ok (b, s')) :
    ∃ t a, title = some t ∧ author = some a ∧ t ≠ "" ∧ a ≠ "" ∧
      b = ⟨s.nextBookId, t, a, false⟩ ∧
      s' = { s with books := s.books ++ [b], nextBookId := s.nextBookId + 1 } := by
  match title, author with
  | none, _ => simp [add_book] at h
  | some t, none => simp [add_book] at h
  | some t, some a =>
    by_cases he : t = "" ∨ a = ""
    · simp [add_book, he] at h
    · push_neg at he
      simp only [add_book, if_neg (by tauto : ¬(t = "" ∨ a = "")), Except.ok.injEq,
        Prod.mk.injEq] at h
      exact ⟨t, a, rfl, rfl, he.1, he.2, h.1.symm, by rw [← h.1]; exact h.2.symm⟩

theorem borrow_book_ok {s : Store} {book_id : Option Nat} {nm₀ : Option String}
    {l : Loan} {s' : Store} (h : borrow_book s book_id nm₀ = .ok (l, s')) :
    ∃ bid nm bk, book_id = some bid ∧ nm₀ = some nm ∧ nm ≠ "" ∧
      findBook s bid = some bk ∧ bk.is_borrowed = false ∧
      l = ⟨s.nextLoanId, bk.id, nm⟩ ∧
      s' = { s with
        loans := s.loans ++ [l]
        nextLoanId := s.nextLoanId + 1
        books := s.books.map
          (fun b' : Book => if b'.id = bk.id then { bk with is_borrowed := true } else b') } := by
  match book_id, nm₀ with
  | none, _ => simp [borrow_book] at h
  | some bid, none => simp [borrow_book] at h
  | some bid, some nm =>
    by_cases hnm : nm = ""
    · simp [borrow_book, hnm] at h
    · simp only [borrow_book, if_neg hnm, borrowReadPhase] at h
      match hfb : findBook s bid with
      | none => rw [hfb] at h; exact absurd h (by simp)
      | some bk =>
        rw [hfb] at h
        by_cases hb : bk.is_borrowed
        · simp [hb] at h
        · simp only [hb, Bool.false_eq_true, if_false, borrowWritePhase, Except.ok.injEq,
            Prod.mk.injEq] at h
          refine ⟨bid, nm, bk, rfl, rfl, hnm, hfb, by simpa using hb, h.1.symm, ?_⟩
          rw [← h.1]; exact h.2.symm

theorem return_book_ok {s : Store} {loan_id : Nat} {msg : String} {s' : Store}
    (h : return_book s loan_id = .ok msg s') :
    ∃ loan bk, findLoan s loan_id = some loan ∧ findBook s loan.book_id = some bk ∧
      msg = "Book \x27" ++ bk.title ++ "\x27 returned successfully" ∧
      s' = { s with
        books := s.books.map
          (fun b' : Book => if b'.id = bk.id then { bk with is_borrowed := false } else b')
        loans := s.loans.filter (fun l : Loan => l.id ≠ loan.id) } := by
  match hfl : findLoan s loan_id with
  | none => simp [return_book, hfl] at h
  | some loan =>
    match hfb : findBook s loan.book_id with
    | none => simp [return_book, hfl, hfb] at h
    | some bk =>
      simp only [return_book, hfl, hfb, ReturnResult.ok.injEq] at h
      exact ⟨loan, bk, rfl, hfb, h.1.symm, h.2.symm⟩

theorem findBook_some {s : Store} {bid : Nat} {bk : Book} (h : findBook s bid = some bk) :
    bk ∈ s.books ∧ bk.id = bid := by
  unfold findBook at h
  exact ⟨List.mem_of_find?_eq_some h, by simpa using List.find?_some h⟩

theorem findLoan_some {s : Store} {lid : Nat} {loan : Loan} (h : findLoan s lid = some loan) :
    loan ∈ s.loans ∧ loan.id = lid := by
  unfold findLoan at h
  exact ⟨List.mem_of_find?_eq_some h, by simpa using List.find?_some h⟩

theorem findBook_none {s : Store} {bid : Nat} :
    findBook s bid = none ↔ ∀ b ∈ s.books, b.id ≠ bid := by
  unfold findBook
  rw [List.find?_eq_none]
  simp

theorem findLoan_none {s : Store} {lid : Nat} :
    findLoan s lid = none ↔ ∀ l ∈ s.loans, l.id ≠ lid := by
  unfold findLoan
  rw [List.find?_eq_none]
  simp

theorem wf_add_book {s : Store} {title author : Option String} {b : Book} {s' : Store}
    (h : add_book s title author = .ok (b, s')) (hwf : WF s) : WF s' := by
  obtain ⟨t, a, -, -, -, -, hb, hs'⟩ := add_book_ok h
  obtain ⟨h1, h2, h3, h4, ⟨h5b, h5l⟩, h6⟩ := hwf
  subst hb hs'
  refine ⟨?_, h2, ?_, h4, ⟨?_, ?_⟩, ?_⟩
  · simp only [BookIdsNodup, List.pairwise_append]
    refine ⟨h1, by simp, ?_⟩
    intro x hx y hy
    simp only [List.mem_singleton] at hy
    subst hy
    have := h5b x hx
    show x.id ≠ s.nextBookId
    omega
  · intro b' hb'
    rcases List.mem_append.1 hb' with hm | hm
    · exact h3 b' hm
    · simp only [List.mem_singleton] at hm
      subst hm
      simp only [show (⟨s.nextBookId, t, a, false⟩ : Book).is_borrowed = false from rfl,
        Bool.false_eq_true, false_iff]
      rintro ⟨l, hl, hlid⟩
      have := (h5l l hl).2
      have hlid' : l.book_id = s.nextBookId := hlid
      omega
  · intro x hx
    rcases List.mem_append.1 hx with hm | hm
    · exact Nat.lt_succ_of_lt (h5b x hm)
    · simp only [List.mem_singleton] at hm
      subst hm
      exact Nat.lt_succ_self _
  · intro l hl
    exact ⟨(h5l l hl).1, Nat.lt_succ_of_lt (h5l l hl).2⟩
  · intro l hl
    obtain ⟨bb, hbb, hid⟩ := h6 l hl
    exact ⟨bb, List.mem_append_left _ hbb, hid⟩

theorem wf_borrow_book {s : Store} {book_id : Option Nat} {nm₀ : Option String}
    {l : Loan} {s' : Store} (h : borrow_book s book_id nm₀ = .ok (l, s')) (hwf : WF s) :
    WF s' := by
  obtain ⟨bid, nm, bk, -, -, -, hfb, hflag, hl, hs'⟩ := borrow_book_ok h
  obtain ⟨hbkmem, hbkid⟩ := findBook_some hfb
  obtain ⟨h1, h2, h3, h4, ⟨h5b, h5l⟩, h6⟩ := hwf
  subst hl hs'
  have hidf : ∀ x : Book,
      (if x.id = bk.id then { bk with is_borrowed := true } else x).id = x.id := by
    intro x
    by_cases hx : x.id = bk.id
    · simp [hx]
    · simp [hx]
  have hnone : ¬ ∃ l' ∈ s.loans, l'.book_id = bk.id := by
    rintro hex
    have := (h3 bk hbkmem).2 hex
    rw [hflag] at this
    exact Bool.false_ne_true this
  refine ⟨?_, ?_, ?_, ?_, ⟨?_, ?_⟩, ?_⟩
  · simp only [BookIdsNodup, List.pairwise_map]
    exact h1.imp (fun {x y} hxy => by rw [hidf x, hidf y]; exact hxy)
  · simp only [LoanIdsNodup, List.pairwise_append]
    refine ⟨h2, by simp, ?_⟩
    intro x hx y hy
    simp only [List.mem_singleton] at hy
    subst hy
    have := (h5l x hx).1
    show x.id ≠ s.nextLoanId
    omega
  · intro b' hb'
    obtain ⟨x, hx, rfl⟩ := List.mem_map.1 hb'
    by_cases hxid : x.id = bk.id
    · simp only [if_pos hxid, show ({ bk with is_borrowed := true } : Book).is_borrowed = true
        from rfl, true_iff]
      exact ⟨⟨s.nextLoanId, bk.id, nm⟩, List.mem_append_right _ (by simp), rfl⟩
    · simp only [if_neg hxid]
      rw [h3 x hx]
      constructor
      · rintro ⟨l', hl', hlid⟩
        exact ⟨l', List.mem_append_left _ hl', hlid⟩
      · rintro ⟨l', hl', hlid⟩
        rcases List.mem_append.1 hl' with hm | hm
        · exact ⟨l', hm, hlid⟩
        · simp only [List.mem_singleton] at hm
          subst hm
          exact absurd hlid.symm hxid
  · intro l₁ h₁ l₂ h₂ heq
    rcases List.mem_append.1 h₁ with hm₁ | hm₁ <;> rcases List.mem_append.1 h₂ with hm₂ | hm₂
    · exact h4 l₁ hm₁ l₂ hm₂ heq
    · simp only [List.mem_singleton] at hm₂
      subst hm₂
      exact absurd ⟨l₁, hm₁, heq⟩ hnone
    · simp only [List.mem_singleton] at hm₁
      subst hm₁
      exact absurd ⟨l₂, hm₂, heq.symm⟩ hnone
    · simp only [List.mem_singleton] at hm₁ hm₂
      rw [hm₁, hm₂]
  · intro x hx
    obtain ⟨y, hy, rfl⟩ := List.mem_map.1 hx
    rw [hidf y]
    exact h5b y hy
  · intro l' hl'
    rcases List.mem_append.1 hl' with hm | hm
    · exact ⟨(h5l l' hm).1.trans (Nat.lt_succ_self _), (h5l l' hm).2⟩
    · simp only [List.mem_singleton] at hm
      subst hm
      exact ⟨Nat.lt_succ_self _, h5b bk hbkmem⟩
  · intro l' hl'
    rcases List.mem_append.1 hl' with hm | hm
    · obtain ⟨bb, hbb, hid⟩ := h6 l' hm
      exact ⟨_, List.mem_map.2 ⟨bb, hbb, rfl⟩, by rw [hidf bb]; exact hid⟩
    · simp only [List.mem_singleton] at hm
      subst hm
      exact ⟨_, List.mem_map.2 ⟨bk, hbkmem, rfl⟩, by rw [hidf bk]⟩

theorem wf_return_book {s : Store} {loan_id : Nat} {msg : String} {s' : Store}
    (h : return_book s loan_id = .ok msg s') (hwf : WF s) : WF s' := by
  obtain ⟨loan, bk, hfl, hfb, -, hs'⟩ := return_book_ok h
  obtain ⟨hloanmem, -⟩ := findLoan_some hfl
  obtain ⟨hbkmem, hbkid⟩ := findBook_some hfb
  obtain ⟨h1, h2, h3, h4, ⟨h5b, h5l⟩, h6⟩ := hwf
  subst hs'
  have hidf : ∀ x : Book,
      (if x.id = bk.id then { bk with is_borrowed := false } else x).id = x.id := by
    intro x
    by_cases hx : x.id = bk.id
    · simp [hx]
    · simp [hx]
  have hsym : Symmetric (fun a b : Loan => a.id ≠ b.id) := fun _ _ hab => hab.symm
  have hmemf : ∀ {l' : Loan}, l' ∈ s.loans.filter (fun l : Loan => l.id ≠ loan.id) ↔
      l' ∈ s.loans ∧ l'.id ≠ loan.id := by
    intro l'
    rw [List.mem_filter]
    simp
  refine ⟨?_, ?_, ?_, ?_, ⟨?_, ?_⟩, ?_⟩
  · simp only [BookIdsNodup, List.pairwise_map]
    exact h1.imp (fun {x y} hxy => by rw [hidf x, hidf y]; exact hxy)
  · exact List.Pairwise.sublist (List.filter_sublist _) h2
  · intro b' hb'
    obtain ⟨x, hx, rfl⟩ := List.mem_map.1 hb'
    by_cases hxid : x.id = bk.id
    · simp only [if_pos hxid, show ({ bk with is_borrowed := false } : Book).is_borrowed = false
        from rfl, Bool.false_eq_true, false_iff]
      rintro ⟨l', hl', hlid⟩
      obtain ⟨hl'mem, hl'ne⟩ := hmemf.1 hl'
      have : l' = loan := h4 l' hl'mem loan hloanmem (by rw [hlid]; exact hbkid.symm ▸ rfl)
      exact hl'ne (by rw [this])
    · simp only [if_neg hxid]
      rw [h3 x hx]
      constructor
      · rintro ⟨l', hl', hlid⟩
        refine ⟨l', hmemf.2 ⟨hl', ?_⟩, hlid⟩
        intro he
        have : l' = loan := by
          rcases eq_or_ne l' loan with h' | h'
          · exact h'
          · exact absurd he (by simpa using List.Pairwise.forall hsym h2 hl' hloanmem h')
        subst this
        exact hxid (by rw [← hlid, ← hbkid])
      · rintro ⟨l', hl', hlid⟩
        exact ⟨l', (hmemf.1 hl').1, hlid⟩
  · intro l₁ h₁ l₂ h₂ heq
    exact h4 l₁ (hmemf.1 h₁).1 l₂ (hmemf.1 h₂).1 heq
  · intro x hx
    obtain ⟨y, hy, rfl⟩ := List.mem_map.1 hx
    rw [hidf y]
    exact h5b y hy
  · intro l' hl'
    exact h5l l' (hmemf.1 hl').1
  · intro l' hl'
    obtain ⟨bb, hbb, hid⟩ := h6 l' (hmemf.1 hl').1
    exact ⟨_, List.mem_map.2 ⟨bb, hbb, rfl⟩, by rw [hidf bb]; exact hid⟩

theorem wf_emptyStore : WF emptyStore := by
  refine ⟨?_, ?_, ?_, ?_, ⟨?_, ?_⟩, ?_⟩ <;> simp [BookIdsNodup, LoanIdsNodup, FlagMatchesLoans,
    AtMostOneLoanPerBook, IdsFresh, LoanBookExists, emptyStore]

/-- Every store reachable by create/borrow/return is well-formed. -/
theorem reach_wf {s : Store} (h : Reach s) : WF s := by
  induction h with
  | empty => exact wf_emptyStore
  | step _ hstep ih =>
    cases hstep with
    | create _ _ _ _ hop => exact wf_add_book hop ih
    | borrow _ _ _ _ hop => exact wf_borrow_book hop ih
    | ret _ _ _ hop => exact wf_return_book hop ih

theorem charsLe_total : ∀ as bs : List Char, charsLe as bs = true ∨ charsLe bs as = true
  | [], _ => .inl rfl
  | _ :: _, [] => .inr rfl
  | a :: as, b :: bs => by
    by_cases hab : a = b
    · subst hab
      simpa [charsLe] using charsLe_total as bs
    · rcases lt_or_gt_of_ne hab with h | h
      · exact .inl (by simp [charsLe, hab, h])
      · exact .inr (by simp [charsLe, Ne.symm hab, h])

theorem charsLe_trans : ∀ as bs cs : List Char,
    charsLe as bs = true → charsLe bs cs = true → charsLe as cs = true
  | [], _, _, _, _ => rfl
  | _ :: _, [], _, h1, _ => by simp [charsLe] at h1
  | _ :: _, _ :: _, [], _, h2 => by simp [charsLe] at h2
  | a :: as, b :: bs, c :: cs, h1, h2 => by
    by_cases hab : a = b
    · subst hab
      simp only [charsLe, if_pos rfl] at h1
      by_cases hac : a = c
      · subst hac
        simp only [charsLe, if_pos rfl] at h2 ⊢
        exact charsLe_trans as bs cs h1 h2
      · simpa [charsLe, hac] using (by simpa [charsLe, hac] using h2 : decide (a < c) = true)
    · simp only [charsLe, if_neg hab] at h1
      have hlt1 : a < b := of_decide_eq_true h1
      by_cases hbc : b = c
      · subst hbc
        simp [charsLe, hab, hlt1]
      · simp only [charsLe, if_neg hbc] at h2
        have hlt2 : b < c := of_decide_eq_true h2
        have hlt : a < c := lt_trans hlt1 hlt2
        simp [charsLe, ne_of_lt hlt, hlt]

theorem charsLe_antisymm : ∀ as bs : List Char,
    charsLe as bs = true → charsLe bs as = true → as = bs
  | [], [], _, _ => rfl
  | [], _ :: _, _, h2 => by simp [charsLe] at h2
  | _ :: _, [], h1, _ => by simp [charsLe] at h1
  | a :: as, b :: bs, h1, h2 => by
    by_cases hab : a = b
    · subst hab
      simp only [charsLe, if_pos rfl] at h1 h2
      rw [charsLe_antisymm as bs h1 h2]
    · simp only [charsLe, if_neg hab, if_neg (Ne.symm hab)] at h1 h2
      exact absurd (of_decide_eq_true h2) (not_lt_of_gt (of_decide_eq_true h1))

theorem strLe_total (s t : String) : strLe s t = true ∨ strLe t s = true :=
  charsLe_total s.data t.data

theorem strLe_trans {s t u : String} (h1 : strLe s t = true) (h2 : strLe t u = true) :
    strLe s u = true :=
  charsLe_trans s.data t.data u.data h1 h2

theorem strLe_antisymm {s t : String} (h1 : strLe s t = true) (h2 : strLe t s = true) :
    s = t :=
  String.ext (charsLe_antisymm s.data t.data h1 h2)

theorem fieldLe_total (field : String) (a b : Book) :
    fieldLe field a b = true ∨ fieldLe field b a = true := by
  unfold fieldLe
  split_ifs
  · exact strLe_total a.title b.title
  · exact strLe_total a.author b.author
  · rcases Nat.le_total a.id b.id with h | h
    · exact .inl (by simpa using h)
    · exact .inr (by simpa using h)
  · exact .inl rfl

theorem fieldLe_trans (field : String) {a b c : Book}
    (h1 : fieldLe field a b = true) (h2 : fieldLe field b c = true) :
    fieldLe field a c = true := by
  unfold fieldLe at h1 h2 ⊢
  split_ifs at h1 h2 ⊢
  · exact strLe_trans h1 h2
  · exact strLe_trans h1 h2
  · exact decide_eq_true (Nat.le_trans (of_decide_eq_true h1) (of_decide_eq_true h2))
  · rfl

theorem bookLe_total (field : String) (desc : Bool) (a b : Book) :
    bookLe field desc a b = true ∨ bookLe field desc b a = true := by
  unfold bookLe
  cases desc
  · simpa using fieldLe_total field a b
  · simpa using (fieldLe_total field a b).symm

theorem bookLe_trans (field : String) (desc : Bool) {a b c : Book}
    (h1 : bookLe field desc a b = true) (h2 : bookLe field desc b c = true) :
    bookLe field desc a c = true := by
  unfold bookLe at h1 h2 ⊢
  cases desc
  · simp only [if_neg (by simp : ¬ (false : Bool) = true)] at h1 h2 ⊢
    exact fieldLe_trans field h1 h2
  · simp only [if_pos rfl] at h1 h2 ⊢
    exact fieldLe_trans field h2 h1

/-- Two lists that are permutations of each other and both sorted by `r`
coincide, provided `r` is antisymmetric on the elements involved. -/
theorem perm_pairwise_eq {α : Type} {r : α → α → Prop} :
    ∀ {l₁ l₂ : List α}, l₁.Perm l₂ → l₁.Pairwise r → l₂.Pairwise r →
      (∀ a ∈ l₁, ∀ b ∈ l₁, r a b → r b a → a = b) → l₁ = l₂ := by
  intro l₁
  induction l₁ with
  | nil =>
    intro l₂ hp _ _ _
    exact (hp.symm.eq_nil).symm
  | cons a t ih =>
    intro l₂ hp hs₁ hs₂ hanti
    match l₂ with
    | [] => exact hp.eq_nil
    | b :: t₂ =>
      have hab : a = b := by
        have haml₂ : a ∈ b :: t₂ := hp.mem_iff.1 (List.mem_cons_self a t)
        have hbml₁ : b ∈ a :: t := hp.mem_iff.2 (List.mem_cons_self b t₂)
        rcases List.mem_cons.1 haml₂ with h | ham
        · exact h
        · have hrba : r b a := (List.pairwise_cons.1 hs₂).1 a ham
          rcases List.mem_cons.1 hbml₁ with h | hbm
          · exact h.symm
          · have hrab : r a b := (List.pairwise_cons.1 hs₁).1 b hbm
            exact hanti a (List.mem_cons_self a t) b (List.mem_cons_of_mem a hbm) hrab hrba
      subst hab
      have hp' : t.Perm t₂ := hp.cons_inv
      have ht : t = t₂ :=
        ih hp' (List.pairwise_cons.1 hs₁).2 (List.pairwise_cons.1 hs₂).2
          (fun x hx y hy => hanti x (List.mem_cons_of_mem a hx) y (List.mem_cons_of_mem a hy))
      rw [ht]

/-- No two books of `l` tie on the sort field: the field comparator is
antisymmetric on the elements of `l`. -/
def TieFree (field : String) (l : List Book) : Prop :=
  ∀ a ∈ l, ∀ b ∈ l, fieldLe field a b = true → fieldLe field b a = true → a = b

/-- The ascending sort is sorted under the field comparator. -/
theorem sortBooks_sorted (field : String) (desc : Bool) (l : List Book) :
    (sortBooks field desc l).Pairwise (fun a b => bookLe field desc a b = true) := by
  haveI htot : IsTotal Book (fun a b => bookLe field desc a b = true) :=
    ⟨fun a b => bookLe_total field desc a b⟩
  haveI htrans : IsTrans Book (fun a b => bookLe field desc a b = true) :=
    ⟨fun _ _ _ h1 h2 => bookLe_trans field desc h1 h2⟩
  exact List.sorted_insertionSort _ l

theorem sortBooks_perm (field : String) (desc : Bool) (l : List Book) :
    (sortBooks field desc l).Perm l :=
  List.perm_insertionSort _ l

/-- On a tie-free list the descending sort is exactly the reverse of the
ascending sort. -/
theorem sortBooks_desc_eq_reverse (field : String) (l : List Book)
    (htf : TieFree field l) :
    sortBooks field true l = (sortBooks field false l).reverse := by
  have hperm : (sortBooks field true l).Perm (sortBooks field false l).reverse :=
    (sortBooks_perm field true l).trans
      ((sortBooks_perm field false l).symm.trans (List.reverse_perm _).symm)
  have hsorted_d : (sortBooks field true l).Pairwise
      (fun a b => bookLe field true a b = true) := sortBooks_sorted field true l
  have hsorted_rev : ((sortBooks field false l).reverse).Pairwise
      (fun a b => bookLe field true a b = true) := by
    rw [List.pairwise_reverse]
    have := sortBooks_sorted field false l
    exact this.imp (fun {a b} h => by
      simpa [bookLe] using (by simpa [bookLe] using h : fieldLe field a b = true))
  refine perm_pairwise_eq hperm hsorted_d hsorted_rev ?_
  intro a ha b hb hrab hrba
  have ha' : a ∈ l := ((sortBooks_perm field true l).mem_iff).1 ha
  have hb' : b ∈ l := ((sortBooks_perm field true l).mem_iff).1 hb
  have h1 : fieldLe field a b = true := by simpa [bookLe] using hrba
  have h2 : fieldLe field b a = true := by simpa [bookLe] using hrab
  exact htf a ha' b hb' h1 h2

theorem find?_eq_some_of_mem_unique {α : Type} {p : α → Bool} {l : List α} {a : α}
    (hm : a ∈ l) (hp : p a = true) (hu : ∀ x ∈ l, p x = true → x = a) :
    l.find? p = some a := by
  induction l with
  | nil => cases hm
  | cons x xs ih =>
    by_cases hx : p x = true
    · have hxa : x = a := hu x (List.mem_cons_self x xs) hx
      subst hxa
      simp [List.find?_cons, hx]
    · have hm' : a ∈ xs := by
        rcases List.mem_cons.1 hm with h | h
        · exact absurd (h ▸ hp) hx
        · exact h
      have hx' : p x = false := by simpa using hx
      rw [List.find?_cons, hx']
      exact ih hm' (fun y hy hpy => hu y (List.mem_cons_of_mem x hy) hpy)

theorem findBook_eq_of_nodup {s : Store} {bk : Book} {bid : Nat}
    (h1 : BookIdsNodup s) (hm : bk ∈ s.books) (hid : bk.id = bid) :
    findBook s bid = some bk := by
  unfold findBook
  refine find?_eq_some_of_mem_unique hm (by simpa using hid) ?_
  intro x hx hpx
  have hxid : x.id = bk.id := by
    rw [hid]
    simpa using hpx
  rcases eq_or_ne x bk with h | h
  · exact h
  · have hsym : Symmetric (fun a b : Book => a.id ≠ b.id) := fun _ _ hab => hab.symm
    exact absurd hxid (List.Pairwise.forall hsym h1 hx hm h)

theorem findLoan_eq_of_nodup {s : Store} {loan : Loan} {lid : Nat}
    (h2 : LoanIdsNodup s) (hm : loan ∈ s.loans) (hid : loan.id = lid) :
    findLoan s lid = some loan := by
  unfold findLoan
  refine find?_eq_some_of_mem_unique hm (by simpa using hid) ?_
  intro x hx hpx
  have hxid : x.id = loan.id := by
    rw [hid]
    simpa using hpx
  rcases eq_or_ne x loan with h | h
  · exact h
  · have hsym : Symmetric (fun a b : Loan => a.id ≠ b.id) := fun _ _ hab => hab.symm
    exact absurd hxid (List.Pairwise.forall hsym h2 hx hm h)

/-- `ceilingDiv` is the mathematical ceiling of the exact quotient, as
`math.ceil(total_items / per_page)` computes it. -/
theorem ceilingDiv_eq_ceil (a b : Int) (hb : 0 < b) :
    ceilingDiv a b = Int.ceil ((a : ℚ) / (b : ℚ)) := by
  have hbn : ((b.toNat : ℕ) : ℤ) = b := Int.toNat_of_nonneg hb.le
  have hq : ((b.toNat : ℕ) : ℚ) = (b : ℚ) := by exact_mod_cast congrArg (Int.cast : ℤ → ℚ) hbn
  have h1 : Int.ceil ((a : ℚ) / (b : ℚ)) = -Int.floor (-((a : ℚ) / (b : ℚ))) := by
    rw [Int.floor_neg, neg_neg]
  have h2 : -((a : ℚ) / (b : ℚ)) = ((-a : ℤ) : ℚ) / ((b.toNat : ℕ) : ℚ) := by
    rw [hq]
    push_cast
    ring
  rw [h1, h2, Rat.floor_intCast_div_natCast, hbn]
  rfl

/-- The store after creating the Book "Dune" in the empty store. -/
def store₁ : Store := ⟨[⟨0, "Dune", "Herbert", false⟩], [], 1, 0⟩

/-- The store after additionally borrowing "Dune" for Alice. -/
def store₂ : Store := ⟨[⟨0, "Dune", "Herbert", true⟩], [⟨0, 0, "Alice"⟩], 1, 1⟩

theorem reach_store₁ : Reach store₁ :=
  Reach.step Reach.empty
    (Step.create emptyStore (some "Dune") (some "Herbert") ⟨0, "Dune", "Herbert", false⟩ store₁
      rfl)

theorem reach_store₂ : Reach store₂ :=
  Reach.step reach_store₁
    (Step.borrow store₁ (some 0) (some "Alice") ⟨0, 0, "Alice"⟩ store₂ rfl)

/-- C1: in every state reachable from the empty store by create, borrow
and return operations, each Book's `is_borrowed` flag is true iff an
active Loan references that Book, and at most one active Loan references
any Book at a time. -/
theorem C1_borrow_return_invariant (s : Store) (h : Reach s) :
    (∀ b ∈ s.books, (b.is_borrowed = true ↔ ∃ l ∈ s.loans, l.book_id = b.id)) ∧
    (∀ l₁ ∈ s.loans, ∀ l₂ ∈ s.loans, l₁.book_id = l₂.book_id → l₁ = l₂) := by
  obtain ⟨-, -, h3, h4, -, -⟩ := reach_wf h
  exact ⟨h3, h4⟩

/-- Witness for C1: the invariant holds in the concrete reachable state
`store₂` (one created book, borrowed once). -/
theorem C1_borrow_return_invariant_witness :
    (∀ b ∈ store₂.books, (b.is_borrowed = true ↔ ∃ l ∈ store₂.loans, l.book_id = b.id)) ∧
    (∀ l₁ ∈ store₂.loans, ∀ l₂ ∈ store₂.loans, l₁.book_id = l₂.book_id → l₁ = l₂) :=
  C1_borrow_return_invariant store₂ reach_store₂

/-- C2: a borrow request fails with ValidationError when `book_id` or
`borrower_name` is missing (Python falsiness also treats an empty
borrower name as missing), with NotFound when no Book carries the id,
with Conflict when the Book already has an active Loan — whichever
borrower asks — and otherwise succeeds, creating the Loan and setting the
Book's `is_borrowed`.  The Conflict test is stated against active Loans,
bridged to the code's flag test by `FlagMatchesLoans`. -/
theorem C2_borrow_contract (s : Store) (hs : FlagMatchesLoans s)
    (book_id : Option Nat) (nm : Option String) :
    ((book_id = none ∨ nm = none ∨ nm = some "") →
      borrow_book s book_id nm = .error (.validation "book_id and borrower_name are required")) ∧
    (∀ bid n, book_id = some bid → nm = some n → n ≠ "" →
      ((∀ b ∈ s.books, b.id ≠ bid) →
        borrow_book s book_id nm = .error (.notFound "Book not found")) ∧
      ((∃ b ∈ s.books, b.id = bid) →
        (((∃ l ∈ s.loans, l.book_id = bid) →
            borrow_book s book_id nm = .error (.conflict "Book already borrowed")) ∧
          ((∀ l ∈ s.loans, l.book_id ≠ bid) →
            ∃ loan s', borrow_book s book_id nm = .ok (loan, s') ∧
              loan.book_id = bid ∧ loan.borrower_name = n ∧
              s'.loans = s.loans ++ [loan] ∧
              (∀ b' ∈ s'.books, b'.id = bid → b'.is_borrowed = true))))) := by
  constructor
  · rintro (h | h | h) <;> subst h
    · simp [borrow_book]
    · cases book_id <;> simp [borrow_book]
    · cases book_id <;> simp [borrow_book]
  · rintro bid n rfl rfl hn
    constructor
    · intro habs
      have hnone : findBook s bid = none := findBook_none.2 habs
      simp [borrow_book, hn, borrowReadPhase, hnone]
    · rintro ⟨b0, hb0, hb0id⟩
      have hsome : ∃ bk, findBook s bid = some bk := by
        have : (s.books.find? (fun b => b.id == bid)).isSome := by
          rw [List.find?_isSome]
          exact ⟨b0, hb0, by simpa using hb0id⟩
        exact Option.isSome_iff_exists.1 this
      obtain ⟨bk, hbk⟩ := hsome
      obtain ⟨hbkmem, hbkid⟩ := findBook_some hbk
      constructor
      · rintro ⟨l, hl, hlid⟩
        have hflag : bk.is_borrowed = true :=
          (hs bk hbkmem).2 ⟨l, hl, by rw [hlid, hbkid]⟩
        simp [borrow_book, hn, borrowReadPhase, hbk, hflag]
      · intro hnoloan
        have hflag : bk.is_borrowed = false := by
          rcases Bool.eq_false_or_eq_true bk.is_borrowed with h | h
          · obtain ⟨l, hl, hlid⟩ := (hs bk hbkmem).1 h
            exact absurd (by rw [hlid, hbkid] : l.book_id = bid) (hnoloan l hl)
          · exact h
        refine ⟨⟨s.nextLoanId, bk.id, n⟩, (borrowWritePhase s bk n).2, ?_, hbkid, rfl, rfl, ?_⟩
        · simp [borrow_book, hn, borrowReadPhase, hbk, hflag, borrowWritePhase]
        · intro b' hb' hb'id
          obtain ⟨x, hx, rfl⟩ := List.mem_map.1 hb'
          by_cases hxid : x.id = bk.id
          · simp [if_pos hxid]
          · rw [if_neg hxid] at hb'id ⊢
            exact absurd (hb'id.trans hbkid.symm) hxid

/-- Witness for C2: in the one-book store `store₁` a well-formed borrow
of book 0 by Alice takes the success branch. -/
theorem C2_borrow_contract_witness :
    ∃ loan s', borrow_book store₁ (some 0) (some "Alice") = .ok (loan, s') ∧
      loan.book_id = 0 ∧ loan.borrower_name = "Alice" ∧
      s'.loans = store₁.loans ++ [loan] ∧
      (∀ b' ∈ s'.books, b'.id = 0 → b'.is_borrowed = true) :=
  (((C2_borrow_contract store₁ (by unfold FlagMatchesLoans; decide) (some 0) (some "Alice")).2
      0 "Alice" rfl rfl (by decide)).2 ⟨⟨0, "Dune", "Herbert", false⟩, by decide, rfl⟩).2
    (by decide)

theorem return_book_notFound {s : Store} {lid : Nat} (h : findLoan s lid = none) :
    return_book s lid = .notFound "Loan not found" s := by
  unfold return_book
  rw [h]

/-- C3: a return request fails with NotFound when no Loan carries the id;
on success it deletes the Loan and clears the referenced Book's
`is_borrowed`, leaving other Books untouched; and a second return of the
same id fails with NotFound and leaves the state — hence every Book's
flag — unchanged. -/
theorem C3_return_contract (s : Store) (h1 : BookIdsNodup s) (h2 : LoanIdsNodup s) (lid : Nat) :
    ((∀ l ∈ s.loans, l.id ≠ lid) → return_book s lid = .notFound "Loan not found" s) ∧
    (∀ loan ∈ s.loans, loan.id = lid → ∀ bk ∈ s.books, bk.id = loan.book_id →
      ∃ s', return_book s lid =
          .ok ("Book \x27" ++ bk.title ++ "\x27 returned successfully") s' ∧
        (∀ l ∈ s'.loans, l.id ≠ lid) ∧
        (∀ b' ∈ s'.books, b'.id = loan.book_id → b'.is_borrowed = false) ∧
        (∀ b' ∈ s'.books, b'.id ≠ loan.book_id → b' ∈ s.books) ∧
        return_book s' lid = .notFound "Loan not found" s') := by
  constructor
  · intro habs
    exact return_book_notFound (findLoan_none.2 habs)
  · intro loan hloan hlid bk hbk hbkid
    have hfl : findLoan s lid = some loan := findLoan_eq_of_nodup h2 hloan hlid
    have hfb : findBook s loan.book_id = some bk := findBook_eq_of_nodup h1 hbk hbkid
    refine ⟨{ s with
        books := s.books.map
          (fun b' : Book => if b'.id = bk.id then { bk with is_borrowed := false } else b')
        loans := s.loans.filter (fun l : Loan => l.id ≠ loan.id) }, ?_, ?_, ?_, ?_, ?_⟩
    · simp only [return_book, hfl, hfb]
    · intro l hl
      have := (List.mem_filter.1 hl).2
      rw [← hlid]
      simpa using this
    · intro b' hb' hb'id
      obtain ⟨x, hx, rfl⟩ := List.mem_map.1 hb'
      by_cases hxid : x.id = bk.id
      · simp [if_pos hxid]
      · rw [if_neg hxid] at hb'id ⊢
        exact absurd (hb'id.trans hbkid.symm) hxid
    · intro b' hb' hb'id
      obtain ⟨x, hx, rfl⟩ := List.mem_map.1 hb'
      by_cases hxid : x.id = bk.id
      · rw [if_pos hxid] at hb'id
        exact absurd hbkid (by simpa using hb'id)
      · rw [if_neg hxid]
        exact hx
    · refine return_book_notFound (findLoan_none.2 ?_)
      intro l hl
      have := (List.mem_filter.1 hl).2
      rw [← hlid]
      simpa using this

/-- Witness for C3: returning loan 0 in `store₂` succeeds, clears the
flag on book 0, and a second return is NotFound. -/
theorem C3_return_contract_witness :
    ∃ s', return_book store₂ 0 =
        .ok ("Book \x27" ++ "Dune" ++ "\x27 returned successfully") s' ∧
      (∀ l ∈ s'.loans, l.id ≠ 0) ∧
      (∀ b' ∈ s'.books, b'.id = (⟨0, 0, "Alice"⟩ : Loan).book_id → b'.is_borrowed = false) ∧
      (∀ b' ∈ s'.books, b'.id ≠ (⟨0, 0, "Alice"⟩ : Loan).book_id → b' ∈ store₂.books) ∧
      return_book s' 0 = .notFound "Loan not found" s' :=
  (C3_return_contract store₂ (by unfold BookIdsNodup; decide) (by unfold LoanIdsNodup; decide)
      0).2 ⟨0, 0, "Alice"⟩ (by decide) rfl ⟨0, "Dune", "Herbert", true⟩ (by decide) rfl

deriving instance DecidableEq for Except

/-- C4: for every valid list request the metadata satisfies
`total_pages = ceil(total_items / per_page)` (stated with the
mathematical ceiling over ℚ), `has_next = (page < total_pages)`,
`has_prev = (page > 1)`, with `total_items` the full filtered count; and
on an empty filtered set with the default `page=1, per_page=10` the
route returns `total_items=0, total_pages=0, has_next=false,
has_prev=false`. -/
theorem C4_pagination_metadata :
    (∀ (s : Store) (p : ListParams), 1 ≤ p.page → 1 ≤ p.per_page → p.per_page ≤ 100 →
      p.sort_by ∈ validSortFields →
      ∃ r, get_books s p = .ok r ∧
        r.pagination.total_items = ((s.books.filter (matchesQuery p)).length : Int) ∧
        r.pagination.total_pages = Int.ceil ((r.pagination.total_items : ℚ) / (p.per_page : ℚ)) ∧
        r.pagination.has_next = decide (p.page < r.pagination.total_pages) ∧
        r.pagination.has_prev = decide (1 < p.page) ∧
        r.pagination.page = p.page ∧ r.pagination.per_page = p.per_page) ∧
    get_books emptyStore {} = .ok ⟨[], ⟨1, 10, 0, 0, false, false⟩⟩ := by
  constructor
  · intro s p h1 h2 h3 h4
    have hc1 : ¬ p.page < 1 := by omega
    have hc2 : ¬ (p.per_page < 1 ∨ p.per_page > 100) := by omega
    have hc3 : ¬ p.sort_by ∉ validSortFields := not_not_intro h4
    have hexp : get_books s p = .ok
        { books := ((sortBooks p.sort_by (p.sort_order = "desc")
              (s.books.filter (matchesQuery p))).drop
                ((p.page - 1) * p.per_page).toNat).take p.per_page.toNat
          pagination :=
            { page := p.page
              per_page := p.per_page
              total_pages :=
                ceilingDiv ((s.books.filter (matchesQuery p)).length : Int) p.per_page
              total_items := ((s.books.filter (matchesQuery p)).length : Int)
              has_next := decide (p.page <
                ceilingDiv ((s.books.filter (matchesQuery p)).length : Int) p.per_page)
              has_prev := decide (1 < p.page) } } := by
      simp only [get_books, if_neg hc1, if_neg hc2, if_neg hc3]
    exact ⟨_, hexp, rfl, ceilingDiv_eq_ceil _ _ (by omega), rfl, rfl, rfl, rfl⟩
  · decide

/-- Witness for C4: the general statement applied to the concrete
borrowed store with default parameters. -/
theorem C4_pagination_metadata_witness :
    ∃ r, get_books store₂ {} = .ok r ∧
      r.pagination.total_items = ((store₂.books.filter (matchesQuery {})).length : Int) ∧
      r.pagination.total_pages =
        Int.ceil ((r.pagination.total_items : ℚ) / ((({} : ListParams)).per_page : ℚ)) ∧
      r.pagination.has_next = decide (({} : ListParams).page < r.pagination.total_pages) ∧
      r.pagination.has_prev = decide (1 < ({} : ListParams).page) ∧
      r.pagination.page = ({} : ListParams).page ∧
      r.pagination.per_page = ({} : ListParams).per_page :=
  C4_pagination_metadata.1 store₂ {} (by decide) (by decide) (by decide) (by decide)

/-- C5: the list operation fails with ValidationError exactly when
`page < 1`, `per_page ∉ [1, 100]`, or `sort_by` is not one of
`title, author, id, created_at`; in particular `per_page = 0` and
`per_page = 101` fail while `per_page = 100` succeeds. -/
theorem C5_list_validation :
    (∀ (s : Store) (p : ListParams),
      (∃ msg, get_books s p = .error (.validation msg)) ↔
        (p.page < 1 ∨ p.per_page < 1 ∨ p.per_page > 100 ∨ p.sort_by ∉ validSortFields)) ∧
    (∃ msg, get_books emptyStore { per_page := 0 } = .error (.validation msg)) ∧
    (∃ msg, get_books emptyStore { per_page := 101 } = .error (.validation msg)) ∧
    (∃ r, get_books emptyStore { per_page := 100 } = .ok r) := by
  refine ⟨?_, ⟨"per_page must be between 1 and 100", by decide⟩,
    ⟨"per_page must be between 1 and 100", by decide⟩,
    ⟨⟨[], ⟨1, 100, 0, 0, false, false⟩⟩, by decide⟩⟩
  intro s p
  constructor
  · rintro ⟨msg, hmsg⟩
    by_cases hc1 : p.page < 1
    · exact .inl hc1
    by_cases hc2 : p.per_page < 1 ∨ p.per_page > 100
    · rcases hc2 with h | h
      · exact .inr (.inl h)
      · exact .inr (.inr (.inl h))
    by_cases hc3 : p.sort_by ∉ validSortFields
    · exact .inr (.inr (.inr hc3))
    · rw [get_books, if_neg hc1, if_neg hc2, if_neg hc3] at hmsg
      exact absurd hmsg (by simp)
  · intro hbad
    by_cases hc1 : p.page < 1
    · exact ⟨"Page must be greater than 0", by rw [get_books, if_pos hc1]⟩
    by_cases hc2 : p.per_page < 1 ∨ p.per_page > 100
    · exact ⟨"per_page must be between 1 and 100", by rw [get_books, if_neg hc1, if_pos hc2]⟩
    by_cases hc3 : p.sort_by ∉ validSortFields
    · exact ⟨"Invalid sort field", by rw [get_books, if_neg hc1, if_neg hc2, if_pos hc3]⟩
    · rcases hbad with h | h | h | h
      · exact absurd h hc1
      · exact absurd (Or.inl h) hc2
      · exact absurd (Or.inr h) hc2
      · exact absurd h hc3

/-- Two distinct books sharing the title "A": a tie for the default sort. -/
def tieStore : Store := ⟨[⟨0, "A", "X", false⟩, ⟨1, "A", "Y", false⟩], [], 2, 0⟩

/-- Counterexample to C6 as stated: with two books of equal title the
descending listing is NOT the reverse of the ascending one — tied
documents come back in insertion order either way, so the claim's
"for every set of books" fails. -/
theorem C6_desc_not_reverse_counterexample :
    ∃ ra rd : BooksPage,
      get_books tieStore {} = .ok ra ∧
      get_books tieStore { sort_order := "desc" } = .ok rd ∧
      rd.books ≠ ra.books.reverse :=
  ⟨⟨[⟨0, "A", "X", false⟩, ⟨1, "A", "Y", false⟩], ⟨1, 10, 1, 2, false, false⟩⟩,
   ⟨[⟨0, "A", "X", false⟩, ⟨1, "A", "Y", false⟩], ⟨1, 10, 1, 2, false, false⟩⟩,
   by decide, by decide, by decide⟩

/-- Books titled "B", "A", "C" in insertion order. -/
def bacStore : Store :=
  ⟨[⟨0, "B", "x", false⟩, ⟨1, "A", "y", false⟩, ⟨2, "C", "z", false⟩], [], 3, 0⟩

/-- C6 (amended): the default listing returns books in ascending title
order — "B","A","C" come back as "A","B","C", and `sort_order=desc`
reverses it — and in general the descending listing is exactly the
reverse of the ascending one whenever no two books tie on the sort
field; the relative order of tied documents is not specified by the
store and is not reversed. -/
theorem C6_sort_order :
    (∃ ra, get_books bacStore {} = .ok ra ∧ ra.books.map Book.title = ["A", "B", "C"]) ∧
    (∃ rd, get_books bacStore { sort_order := "desc" } = .ok rd ∧
      rd.books.map Book.title = ["C", "B", "A"]) ∧
    (∀ l : List Book,
      (sortBooks "title" false l).Pairwise (fun a b => strLe a.title b.title = true)) ∧
    (∀ (field : String) (l : List Book), TieFree field l →
      sortBooks field true l = (sortBooks field false l).reverse) := by
  refine ⟨⟨⟨[⟨1, "A", "y", false⟩, ⟨0, "B", "x", false⟩, ⟨2, "C", "z", false⟩],
      ⟨1, 10, 1, 3, false, false⟩⟩, by decide, by decide⟩,
    ⟨⟨[⟨2, "C", "z", false⟩, ⟨0, "B", "x", false⟩, ⟨1, "A", "y", false⟩],
      ⟨1, 10, 1, 3, false, false⟩⟩, by decide, by decide⟩, ?_, ?_⟩
  · intro l
    exact (sortBooks_sorted "title" false l).imp
      (fun {a b} h => by simpa [bookLe, fieldLe] using h)
  · intro field l htf
    exact sortBooks_desc_eq_reverse field l htf

/-- Witness for C6: the tie-free reversal applied to the concrete
"B","A","C" catalogue. -/
theorem C6_sort_order_witness :
    TieFree "title" bacStore.books ∧
      sortBooks "title" true bacStore.books = (sortBooks "title" false bacStore.books).reverse :=
  ⟨by unfold TieFree; decide,
   C6_sort_order.2.2.2 "title" bacStore.books (by unfold TieFree; decide)⟩

/-- C7 evaluated at the failing input: the SQL iteration's `add_book`
(`v5/routes.py`) performs no validation — an empty title is stored and a
201 returned instead of the ValidationError its own swagger docstring
declares, and a missing field raises an unhandled `KeyError`; the v7
route rejects the same input. -/
theorem C7_create_validation_divergence :
    add_book_v5 emptyStore (some "") (some "Author") =
      .ok ⟨0, "", "Author", false⟩ ⟨[⟨0, "", "Author", false⟩], [], 1, 0⟩ ∧
    add_book_v5 emptyStore none (some "Author") = .keyErrorCrash ∧
    add_book emptyStore (some "") (some "Author") =
      .error (.validation "Missing required fields") ∧
    add_book store₂ (some "Emma") (some "Austen") =
      .ok (⟨1, "Emma", "Austen", false⟩,
        ⟨[⟨0, "Dune", "Herbert", true⟩, ⟨1, "Emma", "Austen", false⟩],
          [⟨0, 0, "Alice"⟩], 2, 1⟩) := by
  refine ⟨by decide, by decide, by decide, by decide⟩

/-- A Loan whose referenced Book has been separately deleted. -/
def danglingStore : Store := ⟨[], [⟨0, 0, "Alice"⟩], 1, 1⟩

/-- C8: returning a Loan whose Book is gone does NOT yield a definitive
success or declared error — the route deletes the Loan, then raises an
unhandled `AttributeError` (`book.title` with `book = None` at
`v7/routes.py` line 397), i.e. an HTTP 500. -/
theorem C8_return_dangling_crashes :
    return_book danglingStore 0 = .crash ⟨[], [], 1, 1⟩ := by decide

/-- The snapshot both concurrent borrow requests read. -/
def raceBook : Book := ⟨0, "Dune", "Herbert", false⟩

/-- C9: the borrow transition is NOT atomic — it is a read phase and a
write phase in separate store round-trips with no transaction.  Under
the interleaving read₁, read₂, write₁, write₂ both requests pass the
`is_borrowed` check on their snapshot and both writes succeed, leaving
two active Loans on the same Book; serialised, the second request would
have been refused with Conflict. -/
theorem C9_borrow_check_then_set_not_atomic :
    borrowReadPhase store₁ 0 = some raceBook ∧
    raceBook.is_borrowed = false ∧
    (borrowWritePhase (borrowWritePhase store₁ raceBook "Alice").2 raceBook "Bob").2.loans
      = [⟨0, 0, "Alice"⟩, ⟨1, 0, "Bob"⟩] ∧
    ¬ AtMostOneLoanPerBook
        (borrowWritePhase (borrowWritePhase store₁ raceBook "Alice").2 raceBook "Bob").2 ∧
    borrow_book (borrowWritePhase store₁ raceBook "Alice").2 (some 0) (some "Bob")
      = .error (.conflict "Book already borrowed") := by
  refine ⟨by decide, by decide, by decide, ?_, by decide⟩
  unfold AtMostOneLoanPerBook
  decide

/-- Counterexample to C10 as stated: in the SQL iteration, deleting a
Book that has an active Loan does not succeed at all — the commit
raises an unhandled `IntegrityError` (HTTP 500, nothing deleted), so
"delete(id) always succeeds ... the SQL versions leave such Loans in
place" fails at `store₂` (book 0 with Alice's active loan). -/
theorem C10_sql_delete_counterexample :
    delete_book_v5 store₂ 0 = .integrityErrorCrash ∧
    ∀ s'', delete_book_v5 store₂ 0 ≠ .ok s'' := by
  refine ⟨by decide, ?_⟩
  intro s'' h
  rw [show delete_book_v5 store₂ 0 = .integrityErrorCrash from by decide] at h
  exact V5DeleteResult.noConfusion h

/-- C10 (amended): deleting an existing Book never fails with Conflict.
In v7 it always succeeds — even with an active Loan — and cascades to
delete every Loan referencing the Book.  In the SQL iteration the
delete succeeds, removing only the Book row and leaving every Loan in
place, exactly when no Loan references the Book; when an active Loan
references it, the commit raises an unhandled `IntegrityError` (HTTP
500) instead of a declared Conflict. -/
theorem C10_delete_contract (s : Store) (bid : Nat) :
    (∀ msg, delete_book s bid ≠ .error (.conflict msg)) ∧
    ((∃ bk ∈ s.books, bk.id = bid) →
      ∃ s', delete_book s bid = .ok s' ∧
        s'.loans = s.loans.filter (fun l : Loan => l.book_id ≠ bid) ∧
        (∀ l ∈ s'.loans, l.book_id ≠ bid) ∧
        ((∃ l ∈ s.loans, l.book_id = bid) →
          delete_book_v5 s bid = .integrityErrorCrash) ∧
        ((∀ l ∈ s.loans, l.book_id ≠ bid) →
          ∃ s'', delete_book_v5 s bid = .ok s'' ∧ s''.loans = s.loans ∧
            s''.books = s.books.filter (fun b' : Book => b'.id ≠ bid))) := by
  constructor
  · intro msg h
    unfold delete_book at h
    cases hfb : findBook s bid <;> rw [hfb] at h <;> simp at h
  · rintro ⟨bk, hbk, hbkid⟩
    have hsome : ∃ b0, findBook s bid = some b0 := by
      have : (s.books.find? (fun b => b.id == bid)).isSome := by
        rw [List.find?_isSome]
        exact ⟨bk, hbk, by simpa using hbkid⟩
      exact Option.isSome_iff_exists.1 this
    obtain ⟨b0, hb0⟩ := hsome
    have hb0id : b0.id = bid := (findBook_some hb0).2
    refine ⟨{ s with
        books := s.books.filter (fun b' : Book => b'.id ≠ b0.id)
        loans := s.loans.filter (fun l : Loan => l.book_id ≠ b0.id) }, ?_, ?_, ?_, ?_, ?_⟩
    · unfold delete_book
      rw [hb0]
    · rw [hb0id]
    · intro l hl
      have := (List.mem_filter.1 hl).2
      rw [← hb0id]
      simpa using this
    · rintro ⟨l, hl, hlid⟩
      have hany : s.loans.any (fun l' : Loan => l'.book_id == b0.id) = true :=
        List.any_eq_true.2 ⟨l, hl, by simp [hlid, hb0id]⟩
      unfold delete_book_v5
      rw [hb0]
      simp [hany]
    · intro hnoref
      have hany : s.loans.any (fun l' : Loan => l'.book_id == b0.id) = false := by
        rw [List.any_eq_false]
        intro l hl
        simp only [beq_iff_eq]
        rw [hb0id]
        exact hnoref l hl
      refine ⟨{ s with books := s.books.filter (fun b' : Book => b'.id ≠ b0.id) }, ?_, rfl, ?_⟩
      · unfold delete_book_v5
        rw [hb0]
        simp [hany]
      · rw [hb0id]

/-- Witness for C10: deleting book 0 of `store₂` (active Loan) succeeds
and cascades in v7 while the SQL delete raises `IntegrityError`; in
`store₁` (no Loan) the SQL delete succeeds and removes only the Book
row. -/
theorem C10_delete_contract_witness :
    (∃ s', delete_book store₂ 0 = .ok s' ∧ (∀ l ∈ s'.loans, l.book_id ≠ 0)) ∧
    delete_book_v5 store₂ 0 = .integrityErrorCrash ∧
    (∃ s'', delete_book_v5 store₁ 0 = .ok s'' ∧ s''.loans = store₁.loans) := by
  obtain ⟨s', hok, -, hnoref, hcrash, -⟩ :=
    (C10_delete_contract store₂ 0).2 ⟨⟨0, "Dune", "Herbert", true⟩, by decide, rfl⟩
  obtain ⟨-, -, -, -, -, hv5ok⟩ :=
    (C10_delete_contract store₁ 0).2 ⟨⟨0, "Dune", "Herbert", false⟩, by decide, rfl⟩
  obtain ⟨s'', hv5, hloans, -⟩ := hv5ok (by decide)
  exact ⟨⟨s', hok, hnoref⟩, hcrash ⟨⟨0, 0, "Alice"⟩, by decide, rfl⟩, ⟨s'', hv5, hloans⟩⟩
